import Mathlib

/-!
Verification development for the auto-caption-ify repository
(src/caption.py and src/fontify.py).

The Python code is shallowly embedded below. Pure computations become Lean
functions; Python floats are modelled by rationals; a Python function that can
raise is modelled with `Except`, where the error value distinguishes ordinary
`Exception`s from `SystemExit` (which `except Exception` does not catch);
external effects (file system probes, HTTP requests) are abstracted into
boolean environments recording whether each external call succeeds.
-/

/- ## Python string primitives

Lean core `String.trim`/`toLower`/`replace` do not reduce inside the kernel,
so the corresponding Python primitives are defined here character-by-character. -/

/-- Python `str.strip()`: remove leading and trailing whitespace. -/
def pyStrip (s : String) : String :=
  ⟨((s.data.dropWhile Char.isWhitespace).reverse.dropWhile Char.isWhitespace).reverse⟩

/-- Lower-case one ASCII character, as Python `str.lower()` does on ASCII text. -/
def lowerChar (c : Char) : Char :=
  if 'A' ≤ c ∧ c ≤ 'Z' then Char.ofNat (c.toNat + 32) else c

/-- Python `str.lower()` (ASCII range, which covers every string the code compares). -/
def lowerStr (s : String) : String := ⟨s.data.map lowerChar⟩

/-- Python `s.replace(c, "")`: delete every occurrence of the character `c`. -/
def removeChar (s : String) (c : Char) : String := ⟨s.data.filter (fun d => d != c)⟩

/-- Python `s.endswith(suffix)`. -/
def strEndsWith (s suffix : String) : Bool := suffix.data.isSuffixOf s.data

/- ## Data model of the caption grouper (src/caption.py, add_captions_to_video) -/

/-- One transcript word as read at src/caption.py lines 762-765: the word text
and its start/end timestamps in seconds (floats, modelled as rationals). -/
structure Word where
  text : String
  start : ℚ
  stop : ℚ
deriving DecidableEq

/-- One subtitle clip appended to `subtitle_clips`. `words` is the word buffer
the clip displays; the clip is visible on `[start, stop)` (the code sets
`with_start(start)` and `with_duration(stop - start)`); `highlightIndex` is the
highlighted word position for clips made by `create_highlighted_word_clip`,
and `none` for plain `TextClip`s; `hasTransition` records whether
`make_zoom_transform` is attached to the clip (lines 799-801, 829-830,
868-870, 898-899); `colorIndex` records which element of the cycling color
palette was consumed via `next(colors)` (`some (c % L)` for the c-th
consumption from a palette of length L), or `none` when the clip's branch
never calls `next(colors)`. -/
structure CaptionEvent where
  words : List String
  start : ℚ
  stop : ℚ
  highlightIndex : Option Nat
  hasTransition : Bool
  colorIndex : Option Nat
deriving DecidableEq

/-- `word_start_times[0]` of a buffer (0 on an empty buffer, which no call site
reaches: the code only flushes non-empty buffers). -/
def gStart : List Word → ℚ
  | [] => 0
  | w :: _ => w.start

/-- `word_end_times[-1]` of a buffer (0 on an empty buffer, unreachable). -/
def gEnd : List Word → ℚ
  | [] => 0
  | [w] => w.stop
  | _ :: ws => gEnd ws

/-- The highlight branch at src/caption.py lines 785-809 (and its copy at
854-878): one clip per word index `i` of the buffer, shown on that word's own
interval, with the zoom transform attached only when `i == 0`, and no call to
`next(colors)`. -/
def emitHighlight (buf : List Word) : List CaptionEvent :=
  buf.enum.map fun p =>
    { words := buf.map Word.text
      start := p.2.start
      stop := p.2.stop
      highlightIndex := some p.1
      hasTransition := p.1 == 0
      colorIndex := none }

/-- The single-clip branch at src/caption.py lines 810-838 (and its copy at
879-907): one `TextClip` for the whole buffer on `[group_start, group_end)`,
with the zoom transform attached, consuming one color with `next(colors)`
(the c-th consumption from a palette of length `L` yields element `c % L`,
since `itertools.cycle` repeats the palette indefinitely). -/
def emitSingle (L c : Nat) (buf : List Word) : CaptionEvent :=
  { words := buf.map Word.text
    start := gStart buf
    stop := gEnd buf
    highlightIndex := none
    hasTransition := true
    colorIndex := some (c % L) }

/-- The per-segment word loop of `add_captions_to_video`
(src/caption.py lines 756-907). Arguments: `g = config["number_of_words"]`,
`hl = config["highlight"]`, `L` = length of `config["text_colors"]`; then the
remaining words of the segment, the current `word_buffer` (the stripped word
text is stored together with its start/end times, mirroring the three parallel
buffer lists), and the number of colors consumed so far from the cycling
palette. Words whose stripped text is empty are skipped (line 767); the buffer
is flushed when it reaches `number_of_words` (line 776), using the highlight
branch when `config["highlight"] and config["number_of_words"] > 1` (line 783);
a remaining non-empty buffer is flushed after the loop (line 846), using the
highlight branch when `config["highlight"] and len(word_buffer) > 1`
(line 852). Returns the emitted clips and the updated color count. -/
def processLoop (g : Nat) (hl : Bool) (L : Nat) :
    List Word → List Word → Nat → List CaptionEvent × Nat
  | [], buf, c =>
    if buf.isEmpty then ([], c)
    else if hl ∧ 1 < buf.length then (emitHighlight buf, c)
    else ([emitSingle L c buf], c + 1)
  | w :: ws, buf, c =>
    let t := pyStrip w.text
    if t = "" then processLoop g hl L ws buf c
    else
      let grown := buf ++ [⟨t, w.start, w.stop⟩]
      if g ≤ grown.length then
        if hl ∧ 1 < g then
          let r := processLoop g hl L ws [] c
          (emitHighlight grown ++ r.1, r.2)
        else
          let r := processLoop g hl L ws [] (c + 1)
          (emitSingle L c grown :: r.1, r.2)
      else processLoop g hl L ws grown c

/-- The same loop, recording only the flushed word buffers: the sequence of
CaptionGroups the segment produces (each group is the value of `word_buffer`
at a flush point of src/caption.py lines 776-843 or 846-907). -/
def captionGroups (g : Nat) : List Word → List Word → List (List Word)
  | [], buf => if buf.isEmpty then [] else [buf]
  | w :: ws, buf =>
    let t := pyStrip w.text
    if t = "" then captionGroups g ws buf
    else
      let grown := buf ++ [⟨t, w.start, w.stop⟩]
      if g ≤ grown.length then grown :: captionGroups g ws []
      else captionGroups g ws grown

/-- The words of a segment that survive the filter at src/caption.py
lines 763-768: stripped text, dropped when empty. -/
def filteredWords (seg : List Word) : List Word :=
  seg.filterMap fun w =>
    if pyStrip w.text = "" then none else some ⟨pyStrip w.text, w.start, w.stop⟩

/-- The whole transcript loop of `add_captions_to_video` (line 756): segments
are processed in order, the word buffer is reset per segment, and the single
`colors = cycle(config["text_colors"])` iterator (line 726) is shared across
all segments. -/
def addCaptionEvents (g : Nat) (hl : Bool) (L : Nat) (segs : List (List Word)) :
    List CaptionEvent :=
  (segs.foldl (fun acc seg =>
    let r := processLoop g hl L seg [] acc.2
    (acc.1 ++ r.1, r.2)) (([], 0) : List CaptionEvent × Nat)).1

/-- Modelled from the spec: the per-group emission rule exactly as claim C2
words it. If highlighting is enabled, the group size is `> 1` and the group
holds more than one word, emit one event per word index `i` spanning that
word's own interval with `highlight_index = i` and the transition only on
`i = 0`; otherwise emit a single non-highlighted event spanning
`[group_start, group_end)` that consumes the next palette color. -/
def claimEmitGroup (g L c : Nat) (grp : List Word) : List CaptionEvent × Nat :=
  if 1 < g ∧ 1 < grp.length then
    (grp.enum.map (fun p =>
      { words := grp.map Word.text
        start := p.2.start
        stop := p.2.stop
        highlightIndex := some p.1
        hasTransition := p.1 == 0
        colorIndex := none }), c)
  else
    ([{ words := grp.map Word.text
        start := gStart grp
        stop := gEnd grp
        highlightIndex := none
        hasTransition := true
        colorIndex := some (c % L) }], c + 1)

/-- Modelled from the spec: claim C2's emission rule applied to a list of
CaptionGroups in order, threading the palette position. -/
def claimEmitGroups (g L : Nat) : List (List Word) → Nat → List CaptionEvent × Nat
  | [], c => ([], c)
  | grp :: rest, c =>
    let e := claimEmitGroup g L c grp
    let r := claimEmitGroups g L rest e.2
    (e.1 ++ r.1, r.2)

/- ## Zoom transition (src/caption.py, make_zoom_transform, lines 258-302) -/

/-- The scale factor applied by the transform returned by
`make_zoom_transform(duration, enabled)` at time `t`: when disabled the frame
is returned unscaled (scale 1); otherwise `transition_duration = duration*0.2`
and for `t < transition_duration` the scale is
`0.5 + 0.5*(t/transition_duration)`, else `1.0` (lines 270-280). -/
def zoomScale (enabled : Bool) (d t : ℚ) : ℚ :=
  match enabled with
  | false => 1
  | true =>
    if t < d * (1 / 5) then 1 / 2 + 1 / 2 * (t / (d * (1 / 5))) else 1

/- ## Position resolver (src/caption.py, parse_position, lines 602-664) -/

/-- Python `int()` applied to a (mathematically exact) float value: truncation
toward zero. -/
def pyInt (q : ℚ) : ℤ := if 0 ≤ q then ⌊q⌋ else ⌈q⌉

/-- One component of an explicit two-element position. A Python string either
ends in `%` with a float-parsable prefix (`strPct q` is the string `"q%"`),
ends in `%` with an unparsable prefix (`float()` raises ValueError), or does
not end in `%` (the code raises ValueError); a Python `int`/`float`/`bool`
value is `num q`; every other runtime type is `other`. -/
inductive PosComp where
  | strPct (q : ℚ)
  | strPctBad
  | strOther
  | num (q : ℚ)
  | other
deriving DecidableEq

/-- A resolved coordinate component: the literal string `'center'`, a fractional
offset such as `0.1`, or an absolute pixel value. -/
inductive Coord where
  | center
  | frac (q : ℚ)
  | px (z : ℤ)
deriving DecidableEq

/-- The runtime value passed as `position`: Python `None`, a string, a
list/tuple of components, or a value of any other type. -/
inductive PosSpec where
  | pyNone
  | str (s : String)
  | coords (l : List PosComp)
  | other
deriving DecidableEq

/-- `convert_to_pixel(val, total_size)` (src/caption.py lines 638-653):
percentage strings become `int(frac * total_size)`; numbers in `[0, 1]` are
fractions, numbers outside it are absolute pixels via `int(val)`; everything
else raises ValueError. -/
def convert_to_pixel : PosComp → ℚ → Except Unit ℤ
  | .strPct q, total => .ok (pyInt (q / 100 * total))
  | .strPctBad, _ => .error ()
  | .strOther, _ => .error ()
  | .num q, total => if 0 ≤ q ∧ q ≤ 1 then .ok (pyInt (q * total)) else .ok (pyInt q)
  | .other, _ => .error ()

/-- The `predefined_positions` dictionary (src/caption.py lines 619-626). -/
def predefined_positions : List (String × (Coord × Coord)) :=
  [("top", (.center, .frac (1 / 10))),
   ("bottom", (.center, .frac (9 / 10))),
   ("top-left", (.frac (1 / 10), .frac (1 / 10))),
   ("top-right", (.frac (9 / 10), .frac (1 / 10))),
   ("bottom-left", (.frac (1 / 10), .frac (9 / 10))),
   ("bottom-right", (.frac (9 / 10), .frac (9 / 10)))]

/-- `parse_position(position, video_width, video_height)`
(src/caption.py lines 602-664). `None` and `"center"` return
`('center','center')`; a preset string returns its table entry; any other
string falls through the list check to the final fallback; a two-element
list/tuple converts both components inside `try` — on success it returns
`('center', y_pixel)` (the converted x is discarded), on any exception the
centered default; everything else returns the centered default. -/
def parse_position (position : PosSpec) (W H : ℚ) : Coord × Coord :=
  match position with
  | .pyNone => (.center, .center)
  | .str s =>
    if s = "center" then (.center, .center)
    else
      match predefined_positions.lookup s with
      | some r => r
      | none => (.center, .center)
  | .coords l =>
    match l with
    | [x, y] =>
      match convert_to_pixel x W, convert_to_pixel y H with
      | .ok _, .ok yp => (.center, .px yp)
      | _, _ => (.center, .center)
    | _ => (.center, .center)
  | .other => (.center, .center)

/-- The position inputs claim C6 calls malformed: a value of a non-string,
non-list type; a list whose length is not 2; a two-element list with a
component `convert_to_pixel` rejects; or a string that is neither `"center"`
nor a predefined preset (its `convert_to_pixel` call would raise, and it
reaches the final fallback). -/
def MalformedPos (p : PosSpec) : Prop :=
  (p = .other) ∨
  (∃ s, p = .str s ∧ s ≠ "center" ∧ (predefined_positions.lookup s).isNone) ∨
  (∃ l, p = .coords l ∧ l.length ≠ 2) ∨
  (∃ x y, p = .coords [x, y] ∧
    ((∀ W, ∃ e, convert_to_pixel x W = .error e) ∨
     (∀ H, ∃ e, convert_to_pixel y H = .error e)))

/- ## Configuration validation (src/caption.py, load_config, lines 514-600) -/

/-- A TOML value as `tomllib` hands it to Python: a number (TOML integer or
float, both modelled as rationals), a boolean, a string, an array, or — only
as the result of validation itself — Python `None` (stored for
`bg_color = "none"`). -/
inductive TomlVal where
  | num (q : ℚ)
  | bool (b : Bool)
  | str (s : String)
  | list (l : List TomlVal)
  | pyNone

/-- A Python dict keyed by strings, as a partial lookup function. -/
abbrev Table := String → Option TomlVal

/-- Build a table from an association list. -/
def mkTable (l : List (String × TomlVal)) : Table := fun k => l.lookup k

/-- `default_config` (src/caption.py lines 516-535). `0.5` is the exact
rational one half. -/
def defaultConfigList : List (String × TomlVal) :=
  [("number_of_words", .num 1),
   ("font", .str "Roboto-Black.ttf"),
   ("font_size", .num 100),
   ("position", .str "center"),
   ("text_align", .str "center"),
   ("text_colors", .list [.str "#00BFFF", .str "#90EE90", .str "#FFD700"]),
   ("stroke_color", .str "#000000"),
   ("stroke_width", .num 6),
   ("bg_color", .str "none"),
   ("margin", .list [.num 40, .num 40]),
   ("transition", .bool true),
   ("highlight", .bool false),
   ("highlight_color", .str "#FFFF00"),
   ("has_intro_sound", .bool false),
   ("intro_sound", .str ""),
   ("overlay", .bool false),
   ("overlay_video", .str ""),
   ("overlay_opacity", .num (Rat.mk' 1 2))]

/-- `default_config` as a table. -/
def defaultConfig : Table := mkTable defaultConfigList

/-- The key-filling loop at src/caption.py lines 542-545: every key of
`default_config` missing from the parsed file is set to its default. -/
def fillDefaults (raw : Table) : Table := fun k =>
  match raw k with
  | some v => some v
  | none => defaultConfig k

/-- Python dict item assignment `t[k] = v`. -/
def setK (t : Table) (k : String) (v : TomlVal) : Table :=
  fun q => if q = k then some v else t q

/-- Python dict item access `t[k]`; a missing key raises KeyError (an
`Exception`, caught by the `except` at line 597). -/
def getK (t : Table) (k : String) : Except Unit TomlVal :=
  match t k with
  | some v => .ok v
  | none => .error ()

/-- A Python value used in a numeric comparison: `int`/`float` compare as
numbers, `bool` compares as 0/1 (bool is a subclass of int); comparing any
other type with a number raises TypeError. -/
def pyNum : TomlVal → Except Unit ℚ
  | .num q => .ok q
  | .bool b => .ok (if b then 1 else 0)
  | _ => .error ()

/-- One validation step of src/caption.py lines 548-591: read the value of one
key (`KeyError` if absent), run the check — which can raise (`.error`), leave
the value alone (`.ok none`), or write a replacement back (`.ok (some v)`). -/
def stepOn (key : String) (check : TomlVal → Except Unit (Option TomlVal))
    (cfg : Table) : Except Unit Table :=
  match getK cfg key with
  | .error e => .error e
  | .ok v =>
    match check v with
    | .error e => .error e
    | .ok none => .ok cfg
    | .ok (some v2) => .ok (setK cfg key v2)

/-- Lines 548-550: `number_of_words < 1` is coerced to 1. -/
def stepNumberOfWords : Table → Except Unit Table :=
  stepOn "number_of_words" fun v =>
    match pyNum v with
    | .error e => .error e
    | .ok q => if q < 1 then .ok (some (.num 1)) else .ok none

/-- Lines 552-554: `font_size` outside `[10, 500]` is clamped with
`max(10, min(500, font_size))`. -/
def stepFontSize : Table → Except Unit Table :=
  stepOn "font_size" fun v =>
    match pyNum v with
    | .error e => .error e
    | .ok q =>
      if q < 10 ∨ 500 < q then .ok (some (.num (max 10 (min 500 q)))) else .ok none

/-- Lines 561-564: `text_align` not in the enum is reset to `"center"`
(Python `in` on a string list never raises, whatever the value's type). -/
def stepTextAlign : Table → Except Unit Table :=
  stepOn "text_align" fun v =>
    match v with
    | .str s =>
      if s = "left" ∨ s = "center" ∨ s = "right" then .ok none
      else .ok (some (.str "center"))
    | _ => .ok (some (.str "center"))

/-- The default three-color palette. -/
def defaultTextColors : TomlVal := .list [.str "#00BFFF", .str "#90EE90", .str "#FFD700"]

/-- Lines 566-568: a `text_colors` that is not a list, or is empty, becomes the
default list. -/
def stepTextColors : Table → Except Unit Table :=
  stepOn "text_colors" fun v =>
    match v with
    | .list l => if l.length = 0 then .ok (some defaultTextColors) else .ok none
    | _ => .ok (some defaultTextColors)

/-- Lines 570-572: `stroke_width` outside `[0, 20]` is clamped. -/
def stepStrokeWidth : Table → Except Unit Table :=
  stepOn "stroke_width" fun v =>
    match pyNum v with
    | .error e => .error e
    | .ok q =>
      if q < 0 ∨ 20 < q then .ok (some (.num (max 0 (min 20 q)))) else .ok none

/-- Lines 574-575: `bg_color.lower() == "none"` stores Python `None`; a
non-string `bg_color` has no `.lower` and raises AttributeError. -/
def stepBgColor : Table → Except Unit Table :=
  stepOn "bg_color" fun v =>
    match v with
    | .str s => if lowerStr s = "none" then .ok (some .pyNone) else .ok none
    | _ => .error ()

/-- Lines 577-579: `margin` that is not a two-element list becomes the default. -/
def stepMargin : Table → Except Unit Table :=
  stepOn "margin" fun v =>
    match v with
    | .list l => if l.length = 2 then .ok none else .ok (some (.list [.num 40, .num 40]))
    | _ => .ok (some (.list [.num 40, .num 40]))

/-- Lines 581-583: a non-boolean `highlight` becomes the default `false`. -/
def stepHighlight : Table → Except Unit Table :=
  stepOn "highlight" fun v =>
    match v with
    | .bool _ => .ok none
    | _ => .ok (some (.bool false))

/-- Lines 585-587: a non-boolean `transition` becomes the default `true`. -/
def stepTransition : Table → Except Unit Table :=
  stepOn "transition" fun v =>
    match v with
    | .bool _ => .ok none
    | _ => .ok (some (.bool true))

/-- Lines 589-591: `overlay_opacity` outside `[0, 1]` is clamped. -/
def stepOverlayOpacity : Table → Except Unit Table :=
  stepOn "overlay_opacity" fun v =>
    match pyNum v with
    | .error e => .error e
    | .ok q =>
      if q < 0 ∨ 1 < q then .ok (some (.num (max 0 (min 1 q)))) else .ok none

/-- The validations of src/caption.py lines 548-591, in source order. -/
def configSteps : List (Table → Except Unit Table) :=
  [stepNumberOfWords, stepFontSize, stepTextAlign, stepTextColors, stepStrokeWidth,
   stepBgColor, stepMargin, stepHighlight, stepTransition, stepOverlayOpacity]

/-- Run validation steps in order; the first raised exception aborts the chain. -/
def runSteps : List (Table → Except Unit Table) → Table → Except Unit Table
  | [], cfg => .ok cfg
  | f :: fs, cfg =>
    match f cfg with
    | .error e => .error e
    | .ok c2 => runSteps fs c2

/-- The body of the `try` at src/caption.py lines 537-593: fill missing keys,
then validate field by field. -/
def validateConfig (raw : Table) : Except Unit Table := runSteps configSteps (fillDefaults raw)

/-- `load_config` (src/caption.py lines 514-600). `none` stands for a missing
or unparsable config file (FileNotFoundError at line 594, or a parse error
caught at line 597) — both return `default_config`; a parsed file is
validated, and any exception inside the `try` is caught at line 597 and also
returns `default_config`. -/
def load_config : Option Table → Table
  | Option.none => defaultConfig
  | Option.some raw =>
    match validateConfig raw with
    | .ok cfg => cfg
    | .error _ => defaultConfig

/- ## Font resolution (src/fontify.py download_font, src/caption.py
ensure_font_exists, lines 304-512) -/

/-- A raised Python error: `exc` is any `Exception` subclass; `systemExit` is
`SystemExit`, which derives from `BaseException` directly, so an
`except Exception` clause does not catch it. -/
inductive PyErr where
  | exc
  | systemExit
deriving DecidableEq

/-- Outcomes of the external calls the font-resolution chain makes, one flag
per call site, in the order the code consults them. -/
structure FontEnv where
  /-- `os.path.exists(font_path)` for the local fonts directory (line 327). -/
  localExists : Bool
  /-- the proprietary alternative is found while walking system font
  directories and the copy succeeds (lines 371-395). -/
  systemAltFound : Bool
  /-- the exact font is found in a system font directory and the copy
  succeeds (lines 398-422). -/
  systemExactFound : Bool
  /-- the Google Fonts CSS API request returns HTTP 200
  (src/fontify.py lines 19-23). -/
  apiStatusOk : Bool
  /-- the returned CSS contains a `url(...)` to a font file
  (src/fontify.py lines 29-32). -/
  cssHasFontUrl : Bool
  /-- the font-file request returns HTTP 200 (src/fontify.py lines 38-41). -/
  fontFileOk : Bool
  /-- the DejaVu zip download succeeds and contains the wanted TTF
  (lines 458-487). -/
  dejavuZipOk : Bool
  /-- the Roboto fallback download succeeds, or the file already exists
  (lines 497-508). -/
  robotoOk : Bool
deriving DecidableEq

/-- The `alternatives` map of proprietary fonts to free substitutes
(src/caption.py lines 334-347). -/
def alternatives : List (String × String) :=
  [("arial", "DejaVuSans.ttf"),
   ("arial.ttf", "DejaVuSans.ttf"),
   ("helvetica", "DejaVuSans.ttf"),
   ("helvetica.ttf", "DejaVuSans.ttf"),
   ("times", "DejaVuSerif.ttf"),
   ("times.ttf", "DejaVuSerif.ttf"),
   ("times new roman", "DejaVuSerif.ttf"),
   ("timesnewroman.ttf", "DejaVuSerif.ttf"),
   ("courier", "DejaVuSansMono.ttf"),
   ("courier.ttf", "DejaVuSansMono.ttf"),
   ("courier new", "DejaVuSansMono.ttf"),
   ("couriernew.ttf", "DejaVuSansMono.ttf")]

/-- Lines 321-322: append `.ttf` when the name carries no font extension. -/
def normFontName (s : String) : String :=
  if strEndsWith (lowerStr s) ".ttf" ∨ strEndsWith (lowerStr s) ".otf" then s
  else s ++ ".ttf"

/-- Line 363: the lookup key `font_name.lower().replace('-','').replace(' ','')`. -/
def altKey (name : String) : String := removeChar (removeChar (lowerStr name) '-') ' '

/-- `download_font` (src/fontify.py lines 9-60): a non-200 answer from the
Google Fonts API calls `sys.exit(1)` (line 23), as does a CSS answer without a
font URL (line 32); a failed font-file download does a plain `return`,
yielding `None` (line 41); otherwise the file is saved and its path returned. -/
def download_font (env : FontEnv) : Except PyErr (Option String) :=
  if env.apiStatusOk = false then .error .systemExit
  else if env.cssHasFontUrl = false then .error .systemExit
  else if env.fontFileOk = false then .ok none
  else .ok (some "fonts/downloaded.ttf")

/-- The Roboto fallback at src/caption.py lines 491-512: return the Roboto
path when the download succeeds (or it already exists), else the original —
possibly nonexistent — `font_path`. -/
def robotoFallback (name : String) (env : FontEnv) : String :=
  if env.robotoOk then "fonts/Roboto-Regular.ttf" else "fonts/" ++ name

/-- The direct-download fallback at src/caption.py lines 451-487 (DejaVu zip
for proprietary names), falling further to the Roboto fallback. -/
def directDownloadFallback (name : String) (alt : Option String) (env : FontEnv) : String :=
  match alt with
  | some a => if env.dejavuZipOk then "fonts/" ++ a else robotoFallback name env
  | none => robotoFallback name env

/-- `ensure_font_exists` (src/caption.py lines 304-512): local directory,
then the proprietary-substitution search of system directories, then the exact
system search, then `download_font` — whose call sits inside
`try ... except Exception` (lines 432-449, 427-489), so an ordinary exception
or a `None` result falls through to the direct-download and Roboto fallbacks,
but a `SystemExit` raised by `download_font` propagates out of both `except
Exception` handlers and terminates the whole run. -/
def ensure_font_exists (fontName : String) (env : FontEnv) : Except PyErr String :=
  let name := normFontName fontName
  if env.localExists then .ok ("fonts/" ++ name)
  else
    let alt := alternatives.lookup (altKey name)
    if alt.isSome ∧ env.systemAltFound then .ok ("fonts/" ++ name)
    else if env.systemExactFound then .ok ("fonts/" ++ name)
    else
      match download_font env with
      | .error .systemExit => .error .systemExit
      | .error .exc => .ok (directDownloadFallback name alt env)
      | .ok (some p) => .ok p
      | .ok none => .ok (directDownloadFallback name alt env)

/- ## Resource lifecycle of add_captions_to_video (lines 666-918) -/

/-- The resources claim C8 tracks at function exit: whether `temp_audio.wav`
is still on disk, and whether the `VideoFileClip` and `CompositeVideoClip`
handles are still open. -/
structure ResourceState where
  tempAudioOnDisk : Bool
  videoHandleOpen : Bool
  finalHandleOpen : Bool
deriving DecidableEq

/-- The resource behaviour of `add_captions_to_video` on its possible exit
paths. The function body is straight-line with no `try`/`finally`:
`VideoFileClip` opens the video (line 687), `write_audiofile` creates
`temp_audio.wav` (line 712), `model.transcribe` may raise (line 716) — an
exception there propagates immediately, before the `os.remove(temp_audio)` at
line 723; otherwise the temp file is removed, `CompositeVideoClip` opens the
final clip (line 910), `write_videofile` may raise (line 913) — an exception
there propagates before the `video.close()`/`final_video.close()` at lines
916-917; on full success both handles are closed. Returns the resource state
at exit and whether the function returned normally. -/
def addCaptionsCleanup (transcribeOk renderOk : Bool) : ResourceState × Bool :=
  if transcribeOk = false then
    ({ tempAudioOnDisk := true, videoHandleOpen := true, finalHandleOpen := false }, false)
  else if renderOk = false then
    ({ tempAudioOnDisk := false, videoHandleOpen := true, finalHandleOpen := true }, false)
  else
    ({ tempAudioOnDisk := false, videoHandleOpen := false, finalHandleOpen := false }, true)

/- ## Theorems -/

/-- Claim C8: on every exit path of the captioning pipeline, including the
paths where transcription or rendering fails partway, the temporary
extracted-audio file is deleted and the opened video/clip handles are closed
before the function exits. The code violates this: with no `try`/`finally`, a
transcription failure exits with `temp_audio.wav` still on disk and the video
handle open, and a rendering failure exits with both clip handles open; the
cleanup claim, stated as a universal, is false. -/
theorem c8_cleanup_missing_on_failure :
    (addCaptionsCleanup false true).1 =
      { tempAudioOnDisk := true, videoHandleOpen := true, finalHandleOpen := false }
    ∧ (addCaptionsCleanup true false).1 =
      { tempAudioOnDisk := false, videoHandleOpen := true, finalHandleOpen := true }
    ∧ ¬ (∀ transcribeOk renderOk : Bool,
        (addCaptionsCleanup transcribeOk renderOk).1.tempAudioOnDisk = false
        ∧ (addCaptionsCleanup transcribeOk renderOk).1.videoHandleOpen = false
        ∧ (addCaptionsCleanup transcribeOk renderOk).1.finalHandleOpen = false) := by
  decide

/-- Claim C4: font resolution is claimed to fall through to the next stage on
any failure — including a failed remote download — and never terminate the
run. The code violates this: when the font is absent locally and from the
system directories and the Google Fonts API request fails (non-200 status),
`download_font` calls `sys.exit(1)`; the resulting `SystemExit` is not an
`Exception`, escapes both `except Exception` handlers of
`ensure_font_exists`, and terminates the run (first conjunct). An ordinary
failure that stays inside `Exception` — e.g. the font-file request failing
after a 200 CSS answer — does fall through to the Roboto fallback as claimed
(second conjunct), and the universal never-terminates claim is false (third
conjunct). -/
theorem c4_download_failure_aborts_run :
    ensure_font_exists "MissingFont"
      { localExists := false, systemAltFound := false, systemExactFound := false,
        apiStatusOk := false, cssHasFontUrl := false, fontFileOk := false,
        dejavuZipOk := false, robotoOk := false } = .error .systemExit
    ∧ ensure_font_exists "MissingFont"
      { localExists := false, systemAltFound := false, systemExactFound := false,
        apiStatusOk := true, cssHasFontUrl := true, fontFileOk := false,
        dejavuZipOk := false, robotoOk := true } = .ok "fonts/Roboto-Regular.ttf"
    ∧ ¬ (∀ env : FontEnv, ∃ p, ensure_font_exists "MissingFont" env = .ok p) := by
  refine ⟨rfl, rfl, fun h => ?_⟩
  obtain ⟨p, hp⟩ := h
    { localExists := false, systemAltFound := false, systemExactFound := false,
      apiStatusOk := false, cssHasFontUrl := false, fontFileOk := false,
      dejavuZipOk := false, robotoOk := false }
  exact absurd hp (by simp [ensure_font_exists, download_font])

/-- Claim C3: the scale function of `make_zoom_transform` returns 1 everywhere
when disabled; when enabled with positive duration it is the linear ramp
`0.5 + 0.5*(t/(0.2*d))` before `0.2*d` and 1 afterwards, so it starts at 0.5,
ends at 1, and is non-decreasing on `[0, d]`; and a zero duration performs no
division and yields 1 for every `t ≥ 0`. -/
theorem c3_zoom_scale (d t : ℚ) (hd : 0 ≤ d) (ht0 : 0 ≤ t) (htd : t ≤ d) :
    zoomScale false d t = 1
    ∧ (0 < d → t < d * (1 / 5) → zoomScale true d t = 1 / 2 + 1 / 2 * (t / (d * (1 / 5))))
    ∧ (0 < d → d * (1 / 5) ≤ t → zoomScale true d t = 1)
    ∧ (0 < d → zoomScale true d 0 = 1 / 2)
    ∧ (0 < d → zoomScale true d d = 1)
    ∧ (∀ t1 t2, 0 ≤ t1 → t1 ≤ t2 → t2 ≤ d → zoomScale true d t1 ≤ zoomScale true d t2)
    ∧ (d = 0 → zoomScale true d t = 1) := by
  refine ⟨rfl, ?_, ?_, ?_, ?_, ?_, ?_⟩
  · intro _ hlt
    simp only [zoomScale]
    rw [if_pos hlt]
  · intro _ hge
    simp only [zoomScale]
    rw [if_neg (not_lt.2 hge)]
  · intro hdpos
    have htdpos : 0 < d * (1 / 5) := mul_pos hdpos (by norm_num)
    simp only [zoomScale]
    rw [if_pos htdpos, zero_div, mul_zero, add_zero]
  · intro hdpos
    have hnot : ¬ d < d * (1 / 5) := by nlinarith
    simp only [zoomScale]
    rw [if_neg hnot]
  · intro t1 t2 h1 h12 h2d
    simp only [zoomScale]
    rcases lt_or_le t1 (d * (1 / 5)) with hc1 | hc1
    · have htdpos : 0 < d * (1 / 5) := lt_of_le_of_lt h1 hc1
      rcases lt_or_le t2 (d * (1 / 5)) with hc2 | hc2
      · rw [if_pos hc1, if_pos hc2]
        gcongr
      · rw [if_pos hc1, if_neg (not_lt.2 hc2)]
        have h1le : t1 / (d * (1 / 5)) ≤ 1 := (div_le_one htdpos).2 hc1.le
        linarith
    · rw [if_neg (not_lt.2 hc1), if_neg (not_lt.2 (le_trans hc1 h12))]
  · intro hd0
    subst hd0
    simp only [zoomScale]
    rw [if_neg (by simpa using not_lt.2 ht0)]

/-- Instantiation of `c3_zoom_scale` at `d = 1`, `t = 0`: the enabled scale at
time 0 of a unit-duration clip is one half. -/
theorem c3_zoom_scale_witness : zoomScale true 1 0 = 1 / 2 :=
  (c3_zoom_scale 1 0 (by decide) (by decide) (by decide)).2.2.2.1 (by decide)

/-- Claim C6: for every malformed position input — a wrong-typed value, an
unrecognized string, a list whose length is not 2, or a two-element list with
an unconvertible component — `parse_position` raises no exception (every raise
site sits inside its `try`, and this total function is the caught result) and
returns the centered default. -/
theorem c6_malformed_position_centered (p : PosSpec) (W H : ℚ)
    (hm : MalformedPos p) : parse_position p W H = (.center, .center) := by
  rcases hm with h | ⟨s, rfl, hs1, hs2⟩ | ⟨l, rfl, hl⟩ | ⟨x, y, rfl, hxy⟩
  · subst h; rfl
  · simp [parse_position, hs1, Option.isNone_iff_eq_none.mp hs2]
  · rcases l with _ | ⟨x, _ | ⟨y, _ | ⟨z, r⟩⟩⟩
    · rfl
    · rfl
    · simp at hl
    · rfl
  · rcases hxy with hx | hy
    · obtain ⟨e, he⟩ := hx W
      cases hy2 : convert_to_pixel y H <;> simp [parse_position, he, hy2]
    · obtain ⟨e, he⟩ := hy H
      cases hx2 : convert_to_pixel x W <;> simp [parse_position, he, hx2]

/-- Instantiation of `c6_malformed_position_centered`: the wrong-typed input
(Python value of a non-string, non-list type) resolves to the centered
default. -/
theorem c6_malformed_position_centered_witness :
    MalformedPos .other ∧ parse_position .other 100 100 = (.center, .center) :=
  ⟨Or.inl rfl, c6_malformed_position_centered .other 100 100 (Or.inl rfl)⟩

/-- Claim C9 counterexample: a percentage string and the corresponding
fraction are NOT always interpreted identically. At `NN = 150` with a 100x100
frame, `"150%"` resolves through the percentage branch to pixel 150, while the
number `150/100 = 1.5` is greater than 1 and is truncated to the absolute
pixel 1. -/
theorem c9_percent_counterexample :
    parse_position (.coords [.strPct 150, .strPct 150]) 100 100 = (.center, .px 150)
    ∧ parse_position (.coords [.num (150 / 100), .num (150 / 100)]) 100 100 = (.center, .px 1)
    ∧ (150 : ℤ) ≠ 1 := by
  refine ⟨?_, ?_, by decide⟩
  · have h : pyInt (150 : ℚ) = 150 := by
      rw [pyInt, if_pos (by norm_num)]
      norm_num
    have harg : (150 : ℚ) / 100 * 100 = 150 := by norm_num
    simp [parse_position, convert_to_pixel, harg, h]
  · have hcond : ¬ ((0 : ℚ) ≤ 150 / 100 ∧ (150 : ℚ) / 100 ≤ 1) := by
      rintro ⟨-, h2⟩
      norm_num at h2
    have h : pyInt ((150 : ℚ) / 100) = 1 := by
      rw [pyInt, if_pos (by norm_num)]
      rw [show (150 : ℚ) / 100 = 3 / 2 by norm_num]
      norm_num
    simp [parse_position, convert_to_pixel, hcond, h]

/-- Claim C9 as amended: `resolve(["50%","50%"], W, H)` equals
`resolve([0.5, 0.5], W, H)` for every frame size, `resolve("center")` is the
centered pair, and a percentage string `"NN%"` with `0 ≤ NN ≤ 100` is
interpreted identically to the number `NN/100` (the identity fails for
`NN > 100`, where the number is read as an absolute pixel offset instead — see
the counterexample). -/
theorem c9_percent_amended (W H : ℚ) :
    parse_position (.coords [.strPct 50, .strPct 50]) W H
      = parse_position (.coords [.num (1 / 2), .num (1 / 2)]) W H
    ∧ parse_position (.str "center") W H = (.center, .center)
    ∧ ∀ (q total : ℚ), 0 ≤ q → q ≤ 100 →
        convert_to_pixel (.strPct q) total = convert_to_pixel (.num (q / 100)) total := by
  have key : ∀ (q total : ℚ), 0 ≤ q → q ≤ 100 →
      convert_to_pixel (.strPct q) total = convert_to_pixel (.num (q / 100)) total := by
    intro q total h0 h100
    have hcond : (0 : ℚ) ≤ q / 100 ∧ q / 100 ≤ 1 :=
      ⟨div_nonneg h0 (by norm_num), (div_le_one (by norm_num)).2 h100⟩
    simp [convert_to_pixel, hcond]
  refine ⟨?_, rfl, key⟩
  have h50 := key 50 W (by norm_num) (by norm_num)
  have h50h := key 50 H (by norm_num) (by norm_num)
  rw [show (50 : ℚ) / 100 = 1 / 2 by norm_num] at h50 h50h
  simp [parse_position, h50, h50h]

/-- Instantiation of `c9_percent_amended` at a 100x100 frame and `NN = 50`. -/
theorem c9_percent_amended_witness :
    parse_position (.str "center") 100 100 = (.center, .center)
    ∧ convert_to_pixel (.strPct 50) 100 = convert_to_pixel (.num (50 / 100)) 100 :=
  ⟨(c9_percent_amended 100 100).2.1,
   (c9_percent_amended 100 100).2.2 50 100 (by norm_num) (by norm_num)⟩

/-- Claim C10: for well-formed two-element coordinates the converted x pixel is
discarded — the resolver always returns `'center'` as the horizontal component,
and two well-formed inputs differing only in the x component resolve
identically. -/
theorem c10_x_component_discarded (x x2 y : PosComp) (W H : ℚ)
    (hx : ∃ v, convert_to_pixel x W = .ok v)
    (hx2 : ∃ v, convert_to_pixel x2 W = .ok v)
    (hy : ∃ v, convert_to_pixel y H = .ok v) :
    parse_position (.coords [x, y]) W H = parse_position (.coords [x2, y]) W H
    ∧ (parse_position (.coords [x, y]) W H).1 = Coord.center := by
  obtain ⟨vx, hvx⟩ := hx
  obtain ⟨vx2, hvx2⟩ := hx2
  obtain ⟨vy, hvy⟩ := hy
  constructor
  · simp [parse_position, hvx, hvx2, hvy]
  · simp [parse_position, hvx, hvy]

/-- Instantiation of `c10_x_component_discarded`: the coordinates
`[0, "30%"]` and `[1, "30%"]` (differing only in x) resolve identically on a
200x100 frame, with `'center'` as the horizontal component. -/
theorem c10_x_component_discarded_witness :
    parse_position (.coords [.num 0, .strPct 30]) 200 100
      = parse_position (.coords [.num 1, .strPct 30]) 200 100
    ∧ (parse_position (.coords [.num 0, .strPct 30]) 200 100).1 = Coord.center :=
  c10_x_component_discarded (.num 0) (.num 1) (.strPct 30) 200 100
    ⟨_, rfl⟩ ⟨_, rfl⟩ ⟨_, rfl⟩

/-- A word whose stripped text is empty is dropped by the filter. -/
theorem filteredWords_cons_skip (w : Word) (ws : List Word) (h : pyStrip w.text = "") :
    filteredWords (w :: ws) = filteredWords ws := by
  simp [filteredWords, h]

/-- A word whose stripped text is non-empty survives the filter, stripped. -/
theorem filteredWords_cons_keep (w : Word) (ws : List Word) (h : ¬ pyStrip w.text = "") :
    filteredWords (w :: ws) = ⟨pyStrip w.text, w.start, w.stop⟩ :: filteredWords ws := by
  simp [filteredWords, h]

/-- Concatenating the CaptionGroups of a segment, started from any buffer
shorter than the group size, yields the buffer followed by the segment's
filtered words. -/
theorem captionGroups_flatten (g : Nat) (hg : 0 < g) :
    ∀ (ws buf : List Word), buf.length < g →
      (captionGroups g ws buf).flatten = buf ++ filteredWords ws := by
  intro ws
  induction ws with
  | nil =>
    intro buf _
    by_cases hbe : buf.isEmpty
    · simp [captionGroups, hbe, filteredWords, List.isEmpty_iff.mp hbe]
    · simp [captionGroups, hbe, filteredWords]
  | cons w ws ih =>
    intro buf hb
    by_cases ht : pyStrip w.text = ""
    · rw [filteredWords_cons_skip w ws ht]
      simpa [captionGroups, ht] using ih buf hb
    · rw [filteredWords_cons_keep w ws ht]
      by_cases hflush : g ≤ buf.length + 1
      · have ihe := ih [] (by simpa using hg)
        simp [captionGroups, ht, hflush, ihe]
      · have ihe := ih (buf ++ [⟨pyStrip w.text, w.start, w.stop⟩]) (by simp; omega)
        simp [captionGroups, ht, hflush, ihe]

/-- The number of CaptionGroups of a segment, started from any buffer shorter
than the group size, is the ceiling of (buffered + filtered words) over the
group size. -/
theorem captionGroups_length (g : Nat) (hg : 0 < g) :
    ∀ (ws buf : List Word), buf.length < g →
      (captionGroups g ws buf).length
        = (buf.length + (filteredWords ws).length + g - 1) / g := by
  intro ws
  induction ws with
  | nil =>
    intro buf hb
    by_cases hbe : buf.isEmpty
    · have h0 : buf.length = 0 := by simp [List.isEmpty_iff.mp hbe]
      simp [captionGroups, hbe, filteredWords, h0]
      exact (Nat.div_eq_of_lt (by omega)).symm
    · have hpos : 0 < buf.length :=
        List.length_pos.2 (by simpa [List.isEmpty_iff] using hbe)
      simp only [captionGroups, if_neg hbe, List.length_singleton, filteredWords,
        List.filterMap_nil, List.length_nil, Nat.add_zero]
      exact (Nat.div_eq_of_lt_le (by omega) (by omega)).symm
  | cons w ws ih =>
    intro buf hb
    by_cases ht : pyStrip w.text = ""
    · rw [filteredWords_cons_skip w ws ht]
      simpa [captionGroups, ht] using ih buf hb
    · rw [filteredWords_cons_keep w ws ht]
      by_cases hflush : g ≤ buf.length + 1
      · have ihe := ih [] (by simpa using hg)
        simp only [captionGroups, if_neg ht, List.length_append, List.length_cons,
          List.length_nil, Nat.zero_add, if_pos hflush, ihe]
        rw [show buf.length + ((filteredWords ws).length + 1) + g - 1
            = ((filteredWords ws).length + g - 1) + g by omega]
        rw [Nat.add_div_right _ hg]
      · have ihe := ih (buf ++ [⟨pyStrip w.text, w.start, w.stop⟩]) (by simp; omega)
        simp only [captionGroups, if_neg ht, List.length_append, List.length_cons,
          List.length_nil, Nat.zero_add, if_neg hflush, ihe]
        congr 1
        omega

/-- Claim C1: with highlighting disabled, grouping a segment with group size
`g ≥ 1` emits `ceil(n / g)` CaptionGroups, where `n` counts the segment's
words with non-empty stripped text, and concatenating the emitted groups in
order reproduces exactly the filtered word sequence (the trailing partial
buffer is flushed as a final group). -/
theorem c1_grouping_count_and_concat (g : Nat) (hg : 1 ≤ g) (seg : List Word) :
    (captionGroups g seg []).flatten = filteredWords seg
    ∧ (captionGroups g seg []).length = ((filteredWords seg).length + g - 1) / g := by
  constructor
  · simpa using captionGroups_flatten g hg seg [] (by simpa using hg)
  · simpa using captionGroups_length g hg seg [] (by simpa using hg)

/-- Instantiation of `c1_grouping_count_and_concat` at group size 2 on a
three-word segment. -/
theorem c1_grouping_count_and_concat_witness :
    (captionGroups 2 [⟨"Hi", 0, 1⟩, ⟨"there", 1, 2⟩, ⟨"friend", 2, 3⟩] []).flatten
      = filteredWords [⟨"Hi", 0, 1⟩, ⟨"there", 1, 2⟩, ⟨"friend", 2, 3⟩]
    ∧ (captionGroups 2 [⟨"Hi", 0, 1⟩, ⟨"there", 1, 2⟩, ⟨"friend", 2, 3⟩] []).length
      = ((filteredWords [⟨"Hi", 0, 1⟩, ⟨"there", 1, 2⟩, ⟨"friend", 2, 3⟩]).length + 2 - 1) / 2 :=
  c1_grouping_count_and_concat 2 (by decide) [⟨"Hi", 0, 1⟩, ⟨"there", 1, 2⟩, ⟨"friend", 2, 3⟩]

/-- The per-segment loop with highlighting enabled equals claim C2's per-group
emission rule applied to the segment's CaptionGroups, for any starting buffer
shorter than the group size. -/
theorem processLoop_eq_claimEmit (g L : Nat) (hg : 0 < g) :
    ∀ (ws buf : List Word) (c : Nat), buf.length < g →
      processLoop g true L ws buf c = claimEmitGroups g L (captionGroups g ws buf) c := by
  intro ws
  induction ws with
  | nil =>
    intro buf c hb
    by_cases hbe : buf.isEmpty
    · simp [processLoop, captionGroups, hbe, claimEmitGroups]
    · by_cases hlen : 1 < buf.length
      · have hg1 : 1 < g := by omega
        simp [processLoop, captionGroups, hbe, claimEmitGroups, claimEmitGroup, hlen, hg1,
          emitHighlight]
      · simp [processLoop, captionGroups, hbe, claimEmitGroups, claimEmitGroup, hlen,
          emitSingle]
  | cons w ws ih =>
    intro buf c hb
    by_cases ht : pyStrip w.text = ""
    · simpa [processLoop, captionGroups, ht] using ih buf c hb
    · by_cases hflush : g ≤ buf.length + 1
      · have hgl : (buf ++ [(⟨pyStrip w.text, w.start, w.stop⟩ : Word)]).length = g := by
          simp
          omega
        by_cases hg1 : 1 < g
        · have ihe := ih [] c (by simpa using hg)
          simp [processLoop, captionGroups, ht, hflush, hg1, claimEmitGroups, claimEmitGroup,
            hgl, emitHighlight, ihe]
        · have ihe := ih [] (c + 1) (by simpa using hg)
          simp [processLoop, captionGroups, ht, hflush, hg1, claimEmitGroups, claimEmitGroup,
            hgl, emitSingle, ihe]
      · have ihe := ih (buf ++ [⟨pyStrip w.text, w.start, w.stop⟩]) c (by simp; omega)
        simpa [processLoop, captionGroups, ht, hflush] using ihe

/-- Claim C2: with highlighting enabled, every CaptionGroup with group size
greater than 1 and more than one word yields exactly one CaptionEvent per word
index `i`, spanning that word's own interval, with `highlight_index = i` and
the zoom transition only on the first; every other group — in particular every
group of a single word — is emitted as one non-highlighted event spanning the
group's interval. Stated as: the code's loop equals the claim's per-group
emission rule. -/
theorem c2_highlight_per_word_events (g L : Nat) (hg : 1 ≤ g) (seg : List Word) (c : Nat) :
    processLoop g true L seg [] c = claimEmitGroups g L (captionGroups g seg []) c :=
  processLoop_eq_claimEmit g L hg seg [] c (by simpa using hg)

/-- Instantiation of `c2_highlight_per_word_events`: group size 2, a
three-word segment, palette length 3. -/
theorem c2_highlight_per_word_events_witness :
    processLoop 2 true 3 [⟨"Hi", 0, 1⟩, ⟨"there", 1, 2⟩, ⟨"friend", 2, 3⟩] [] 0
      = claimEmitGroups 2 3
          (captionGroups 2 [⟨"Hi", 0, 1⟩, ⟨"there", 1, 2⟩, ⟨"friend", 2, 3⟩] []) 0 :=
  c2_highlight_per_word_events 2 3 (by decide) [⟨"Hi", 0, 1⟩, ⟨"there", 1, 2⟩, ⟨"friend", 2, 3⟩] 0

/-- The highlight branch consumes no palette color. -/
theorem emitHighlight_colorIndices (buf : List Word) :
    (emitHighlight buf).filterMap CaptionEvent.colorIndex = [] := by
  simp [emitHighlight, List.filterMap_map, Function.comp_def]

/-- Every event of the highlight branch carries no palette color. -/
theorem mem_emitHighlight_colorIndex (buf : List Word) (e : CaptionEvent)
    (he : e ∈ emitHighlight buf) : e.colorIndex = none := by
  obtain ⟨p, -, rfl⟩ := List.mem_map.1 he
  rfl

/-- Shifting one step through the cycling palette. -/
theorem range_map_mod_shift (c m L : Nat) :
    (List.range (m + 1)).map (fun k => (c + k) % L)
      = (c % L) :: (List.range m).map (fun k => (c + 1 + k) % L) := by
  rw [List.range_succ_eq_map, List.map_cons, List.map_map]
  simp only [Nat.add_zero, List.cons.injEq]
  refine ⟨trivial, ?_⟩
  apply List.map_congr_left
  intro k hk
  show (c + (k + 1)) % L = (c + 1 + k) % L
  congr 1
  omega

/-- Color bookkeeping of the per-segment loop: the final color count exceeds
the starting one by the number of single (non-highlighted) clips emitted, and
the palette positions consumed are consecutive positions of the cycle,
starting at the current one. -/
theorem processLoop_colorIndices (g : Nat) (hl : Bool) (L : Nat) :
    ∀ (ws buf : List Word) (c : Nat), ∃ m,
      (processLoop g hl L ws buf c).2 = c + m ∧
      (processLoop g hl L ws buf c).1.filterMap CaptionEvent.colorIndex
        = (List.range m).map (fun k => (c + k) % L) := by
  intro ws
  induction ws with
  | nil =>
    intro buf c
    by_cases hbe : buf.isEmpty
    · exact ⟨0, by simp [processLoop, hbe], by simp [processLoop, hbe]⟩
    · by_cases hcond : hl ∧ 1 < buf.length
      · exact ⟨0, by simp [processLoop, hbe, hcond],
          by simp [processLoop, hbe, hcond, emitHighlight_colorIndices]⟩
      · exact ⟨1, by simp [processLoop, hbe, hcond],
          by simp [processLoop, hbe, hcond, emitSingle, show List.range 1 = [0] from rfl]⟩
  | cons w ws ih =>
    intro buf c
    by_cases ht : pyStrip w.text = ""
    · simpa [processLoop, ht] using ih buf c
    · by_cases hflush : g ≤ buf.length + 1
      · by_cases hcond : hl ∧ 1 < g
        · obtain ⟨hhl, hg1⟩ := hcond
          subst hhl
          obtain ⟨m, h2, h1⟩ := ih [] c
          exact ⟨m, by simp [processLoop, ht, hflush, hg1, h2],
            by simp [processLoop, ht, hflush, hg1, emitHighlight_colorIndices, h1]⟩
        · obtain ⟨m, h2, h1⟩ := ih [] (c + 1)
          refine ⟨m + 1, by simp [processLoop, ht, hflush, hcond, h2]; omega, ?_⟩
          simp [processLoop, ht, hflush, hcond, emitSingle, h1, range_map_mod_shift]
      · simpa [processLoop, ht, hflush] using ih (buf ++ [⟨pyStrip w.text, w.start, w.stop⟩]) c

/-- Every event emitted by the per-segment loop that carries a highlight index
carries no palette color. -/
theorem processLoop_highlight_no_color (g : Nat) (hl : Bool) (L : Nat) :
    ∀ (ws buf : List Word) (c : Nat) (e : CaptionEvent),
      e ∈ (processLoop g hl L ws buf c).1 → e.highlightIndex.isSome = true →
      e.colorIndex = none := by
  intro ws
  induction ws with
  | nil =>
    intro buf c e he hh
    by_cases hbe : buf.isEmpty
    · simp [processLoop, hbe] at he
    · by_cases hcond : hl ∧ 1 < buf.length
      · exact mem_emitHighlight_colorIndex buf e (by simpa [processLoop, hbe, hcond] using he)
      · have hes : e = emitSingle L c buf := by simpa [processLoop, hbe, hcond] using he
        rw [hes] at hh
        simp [emitSingle] at hh
  | cons w ws ih =>
    intro buf c e he hh
    by_cases ht : pyStrip w.text = ""
    · exact ih buf c e (by simpa [processLoop, ht] using he) hh
    · by_cases hflush : g ≤ buf.length + 1
      · by_cases hcond : hl ∧ 1 < g
        · obtain ⟨hhl, hg1⟩ := hcond
          subst hhl
          have he2 := (by simpa [processLoop, ht, hflush, hg1] using he :
            e ∈ emitHighlight (buf ++ [⟨pyStrip w.text, w.start, w.stop⟩])
            ∨ e ∈ (processLoop g true L ws [] c).1)
          rcases he2 with he2 | he2
          · exact mem_emitHighlight_colorIndex _ e he2
          · exact ih [] c e he2 hh
        · have he2 := (by simpa [processLoop, ht, hflush, hcond] using he :
            e = emitSingle L c (buf ++ [⟨pyStrip w.text, w.start, w.stop⟩])
            ∨ e ∈ (processLoop g hl L ws [] (c + 1)).1)
          rcases he2 with he2 | he2
          · rw [he2] at hh
            simp [emitSingle] at hh
          · exact ih [] (c + 1) e he2 hh
      · exact ih (buf ++ [⟨pyStrip w.text, w.start, w.stop⟩]) c e
          (by simpa [processLoop, ht, hflush] using he) hh

/-- Folding the transcript loop preserves the palette-cycle invariant: if the
events accumulated so far consumed palette positions `0, 1, ..., c-1` of the
cycle (where `c` is the shared color count), the same holds after any further
segments. -/
theorem foldl_color_invariant (g : Nat) (hl : Bool) (L : Nat) :
    ∀ (segs : List (List Word)) (acc : List CaptionEvent × Nat),
      acc.1.filterMap CaptionEvent.colorIndex = (List.range acc.2).map (fun k => k % L) →
      (segs.foldl (fun acc seg =>
          let r := processLoop g hl L seg [] acc.2
          (acc.1 ++ r.1, r.2)) acc).1.filterMap CaptionEvent.colorIndex
        = (List.range ((segs.foldl (fun acc seg =>
            let r := processLoop g hl L seg [] acc.2
            (acc.1 ++ r.1, r.2)) acc).2)).map (fun k => k % L) := by
  intro segs
  induction segs with
  | nil =>
    intro acc h
    simpa using h
  | cons seg segs ih =>
    intro acc h
    simp only [List.foldl_cons]
    apply ih
    obtain ⟨m, h2, h1⟩ := processLoop_colorIndices g hl L seg [] acc.2
    simp only [List.filterMap_append, h, h1, h2, List.range_add, List.map_append,
      List.map_map]
    congr 1

/-- Every event the transcript loop accumulates that carries a highlight index
carries no palette color, provided that held of the starting accumulator. -/
theorem foldl_highlight_no_color (g : Nat) (hl : Bool) (L : Nat) :
    ∀ (segs : List (List Word)) (acc : List CaptionEvent × Nat),
      (∀ e ∈ acc.1, e.highlightIndex.isSome = true → e.colorIndex = none) →
      ∀ e ∈ (segs.foldl (fun acc seg =>
          let r := processLoop g hl L seg [] acc.2
          (acc.1 ++ r.1, r.2)) acc).1,
        e.highlightIndex.isSome = true → e.colorIndex = none := by
  intro segs
  induction segs with
  | nil =>
    intro acc h
    simpa using h
  | cons seg segs ih =>
    intro acc h
    simp only [List.foldl_cons]
    apply ih
    intro e he hh
    rcases List.mem_append.1 he with he2 | he2
    · exact h e he2 hh
    · exact processLoop_highlight_no_color g hl L seg [] acc.2 e he2 hh

/-- Claim C5 counterexample: with the default three-color palette, group size
2, highlighting enabled, and one segment of three words, two CaptionGroups are
emitted; the claim predicts the first is assigned `palette[0 % 3]` and the
second `palette[1 % 3]`, but in the code the first (highlighted) group's
events consume no palette color at all and the second group's single event
consumes palette position `0 % 3 = 0`, not `1 % 3 = 1`. -/
theorem c5_palette_counterexample :
    (addCaptionEvents 2 true 3 [[⟨"Hi", 0, 1⟩, ⟨"there", 1, 2⟩, ⟨"friend", 2, 3⟩]]).map
        CaptionEvent.colorIndex = [none, none, some 0]
    ∧ captionGroups 2 [⟨"Hi", 0, 1⟩, ⟨"there", 1, 2⟩, ⟨"friend", 2, 3⟩] []
        = [[⟨"Hi", 0, 1⟩, ⟨"there", 1, 2⟩], [⟨"friend", 2, 3⟩]]
    ∧ (some 0 : Option Nat) ≠ some (1 % 3)
    ∧ (none : Option Nat) ≠ some (0 % 3) := by
  decide

/-- Claim C5 as amended: the palette is consumed round-robin at the rate of
one color per CaptionGroup emitted as a single non-highlighted event — the
k-th such group (0-based, counted across all segments, counting only these
groups) is assigned palette position `k mod palette_length` — while a group
rendered as per-word highlighted events consumes no palette color. When
highlighting is disabled every emitted group is of the first kind, so the
original claim holds in that case. -/
theorem c5_palette_amended (g : Nat) (hl : Bool) (L : Nat) (segs : List (List Word)) :
    (addCaptionEvents g hl L segs).filterMap CaptionEvent.colorIndex
      = (List.range ((addCaptionEvents g hl L segs).filterMap CaptionEvent.colorIndex).length).map
          (fun k => k % L)
    ∧ ∀ e ∈ addCaptionEvents g hl L segs, e.highlightIndex.isSome = true →
        e.colorIndex = none := by
  constructor
  · have h := foldl_color_invariant g hl L segs ([], 0) (by simp)
    rw [addCaptionEvents, h]
    simp
  · intro e he hh
    exact foldl_highlight_no_color g hl L segs ([], 0) (by simp) e he hh

/-- Instantiation of `c5_palette_amended` on a concrete run (group size 2,
highlighting on, palette length 3, one three-word segment): its single
non-highlighted event consumes palette position 0, and its first highlighted
event consumes no color. -/
theorem c5_palette_amended_witness :
    (addCaptionEvents 2 true 3 [[⟨"Hi", 0, 1⟩, ⟨"there", 1, 2⟩, ⟨"friend", 2, 3⟩]]).filterMap
        CaptionEvent.colorIndex
      = (List.range ((addCaptionEvents 2 true 3
            [[⟨"Hi", 0, 1⟩, ⟨"there", 1, 2⟩, ⟨"friend", 2, 3⟩]]).filterMap
              CaptionEvent.colorIndex).length).map (fun k => k % 3)
    ∧ ({ words := ["Hi", "there"], start := 0, stop := 1, highlightIndex := some 0,
         hasTransition := true, colorIndex := none } : CaptionEvent).colorIndex = none :=
  ⟨(c5_palette_amended 2 true 3 [[⟨"Hi", 0, 1⟩, ⟨"there", 1, 2⟩, ⟨"friend", 2, 3⟩]]).1,
   (c5_palette_amended 2 true 3 [[⟨"Hi", 0, 1⟩, ⟨"there", 1, 2⟩, ⟨"friend", 2, 3⟩]]).2
     { words := ["Hi", "there"], start := 0, stop := 1, highlightIndex := some 0,
       hasTransition := true, colorIndex := none } (by decide) (by decide)⟩

/-- Updating one key of a table preserves presence of every key. -/
theorem setK_isSome (t : Table) (k2 : String) (v : TomlVal) (k : String)
    (h : (t k).isSome = true) : ((setK t k2 v) k).isSome = true := by
  by_cases hk : k = k2 <;> simp [setK, hk, h]

/-- A validation step built with `stepOn` never removes a key from the table. -/
theorem stepOn_preserves (key : String) (check : TomlVal → Except Unit (Option TomlVal))
    (t c : Table) (h : stepOn key check t = .ok c) (k : String)
    (hk : (t k).isSome = true) : (c k).isSome = true := by
  unfold stepOn at h
  split at h
  · simp at h
  · split at h
    · simp at h
    · injection h with h
      subst h
      exact hk
    · injection h with h
      subst h
      exact setK_isSome t key _ k hk

/-- Running a list of key-preserving steps preserves presence of every key. -/
theorem runSteps_preserves :
    ∀ (fs : List (Table → Except Unit Table)),
      (∀ f ∈ fs, ∀ t c, f t = .ok c → ∀ k, (t k).isSome = true → (c k).isSome = true) →
      ∀ t c, runSteps fs t = .ok c → ∀ k, (t k).isSome = true → (c k).isSome = true := by
  intro fs
  induction fs with
  | nil =>
    intro _ t c h k hk
    simp only [runSteps] at h
    injection h with h
    subst h
    exact hk
  | cons f fs ih =>
    intro hall t c h k hk
    simp only [runSteps] at h
    cases hf : f t with
    | error e => rw [hf] at h; simp at h
    | ok t2 =>
      rw [hf] at h
      exact ih (fun f2 hf2 => hall f2 (List.mem_cons_of_mem f hf2)) t2 c h k
        (hall f (List.mem_cons_self f fs) t t2 hf k hk)

/-- Every validation step of `load_config` preserves presence of every key. -/
theorem configSteps_preserve :
    ∀ f ∈ configSteps, ∀ t c, f t = .ok c → ∀ k, (t k).isSome = true → (c k).isSome = true := by
  intro f hf
  simp only [configSteps, List.mem_cons, List.not_mem_nil, or_false] at hf
  rcases hf with rfl | rfl | rfl | rfl | rfl | rfl | rfl | rfl | rfl | rfl <;>
    exact fun t c h k hk => stepOn_preserves _ _ t c h k hk

/-- Claim C7: configuration validation clamps or coerces out-of-range values
instead of aborting — a `font_size` of 1000 becomes 500, a `number_of_words`
of 0 becomes 1, a `stroke_width` of -5 becomes 0, and a missing or empty
`text_colors` becomes the default three-color list — and for every
configuration file (missing, unparsable, or any parsed table) validation
returns a configuration containing every default key, without raising (every
exception is caught and replaced by the defaults). -/
theorem c7_config_validation :
    (∀ (input : Option Table) (k : String), (defaultConfig k).isSome = true →
        (load_config input k).isSome = true)
    ∧ load_config (some (mkTable [("font_size", .num 1000)])) "font_size" = some (.num 500)
    ∧ load_config (some (mkTable [("number_of_words", .num 0)])) "number_of_words"
        = some (.num 1)
    ∧ load_config (some (mkTable [("stroke_width", .num (-5))])) "stroke_width" = some (.num 0)
    ∧ load_config (some (mkTable [])) "text_colors" = some defaultTextColors
    ∧ load_config (some (mkTable [("text_colors", .list [])])) "text_colors"
        = some defaultTextColors := by
  refine ⟨?_, rfl, rfl, rfl, rfl, rfl⟩
  intro input k hk
  cases input with
  | none => simpa [load_config] using hk
  | some raw =>
    simp only [load_config]
    cases hv : validateConfig raw with
    | error e => simpa using hk
    | ok cfg =>
      have hfill : ((fillDefaults raw) k).isSome = true := by
        rw [fillDefaults]
        cases hr : raw k
        · simpa using hk
        · simp
      exact runSteps_preserves configSteps configSteps_preserve (fillDefaults raw) cfg hv k hfill

/-- Instantiation of `c7_config_validation`: with no config file, the returned
configuration still carries a `font_size` entry. -/
theorem c7_config_validation_witness :
    (load_config Option.none "font_size").isSome = true :=
  c7_config_validation.1 Option.none "font_size" (by rfl)
